import Mathlib

/-!
Verification of the leaderboard, rating and progression logic of the
cytoid.api backend (controllers in src/unnamed/part_004).

The SQL queries and arithmetic of the controllers are shallowly embedded:
database tables become lists of row structures, the queries become list
functions, and monetary-free arithmetic is carried out in ℚ, with ℝ only
where the source uses sqrt and log.
-/

namespace Cytoid

/-- A row of the records table, restricted to the columns used by the
leaderboard queries (score, date, ranked, owner, chart). -/
structure RecordRow where
  id : ℕ
  ownerId : ℕ
  chartId : ℕ
  score : ℤ
  date : ℕ
  ranked : Bool
deriving DecidableEq

/-- A row of the charts table (id, owning level, type). -/
structure ChartRow where
  id : ℕ
  levelId : ℕ
  type : String
deriving DecidableEq

/-- A row of the levels table (id and the textual uid used in URLs). -/
structure LevelRow where
  id : ℕ
  uid : String
deriving DecidableEq

/-- A row of the users table (id and the textual uid). -/
structure UserRow where
  id : ℕ
  uid : String
deriving DecidableEq

/-- The database state visible to the leaderboard queries. -/
structure Db where
  levels : List LevelRow
  charts : List ChartRow
  records : List RecordRow
  users : List UserRow
deriving DecidableEq

/-- The subquery SELECT id FROM levels WHERE uid=:uid. -/
def levelIdFor (levels : List LevelRow) (uid : String) : Option ℕ :=
  (levels.find? (fun l => l.uid == uid)).map (fun l => l.id)

/-- The subquery SELECT id FROM charts WHERE levelId=(...) AND type=:type
of queryLeaderboard. -/
def chartIdFor (db : Db) (uid ctype : String) : Option ℕ :=
  (db.charts.find? (fun c =>
    levelIdFor db.levels uid == some c.levelId && c.type == ctype)).map (fun c => c.id)

/-- The rows accepted by the WHERE clause of the queryLeaderboard subquery:
records of the resolved chart with ranked=true. -/
def rankedRecords (db : Db) (uid ctype : String) : List RecordRow :=
  db.records.filter (fun r =>
    chartIdFor db uid ctype == some r.chartId && r.ranked)

/-- Strict precedence in the leaderboard window order
ORDER BY score DESC, date ASC: a is strictly ahead of b. -/
def aheadOf (a b : RecordRow) : Bool :=
  b.score < a.score || (a.score == b.score && a.date < b.date)

/-- Keeps the better of two records under the DISTINCT ON sort order
(score DESC, date ASC), preferring the accumulator on full ties. -/
def pickBetter (a b : RecordRow) : RecordRow :=
  if aheadOf b a then b else a

/-- The single row DISTINCT ON (ownerId) keeps for one owner: the first row
of the group under ORDER BY ownerId, score DESC, date ASC. -/
def bestForOwner (l : List RecordRow) (o : ℕ) : Option RecordRow :=
  match l.filter (fun r => r.ownerId == o) with
  | [] => none
  | x :: xs => some (xs.foldl pickBetter x)

/-- The SELECT DISTINCT ON (ownerId) subquery: one best record per owner. -/
def distinctOnOwner (l : List RecordRow) : List RecordRow :=
  ((l.map (fun r => r.ownerId)).dedup).filterMap (bestForOwner l)

/-- Non-strict leaderboard window order, the negation of strict precedence
of the right operand. -/
def windowLe (a b : RecordRow) : Prop :=
  aheadOf b a = false

instance : DecidableRel windowLe :=
  fun a b => instDecidableEqBool (aheadOf b a) false

/-- An output row of queryLeaderboard: a deduplicated record together with
the value of rank() OVER (ORDER BY score DESC, date ASC). -/
structure LBEntry where
  row : RecordRow
  rank : ℕ
deriving DecidableEq

/-- The deduplicated record set of a chart leaderboard, in window order. -/
def lbSorted (db : Db) (uid ctype : String) : List RecordRow :=
  List.insertionSort windowLe (distinctOnOwner (rankedRecords db uid ctype))

/-- The full leaderboard query of LevelController.queryLeaderboard: dedup per
owner, then rank() OVER (ORDER BY score DESC, date ASC); the rank of a row is
one more than the number of rows strictly ahead of it in the window order. -/
def queryLeaderboard (db : Db) (uid ctype : String) : List LBEntry :=
  (lbSorted db uid ctype).map
    (fun r => ⟨r, 1 + (lbSorted db uid ctype).countP (fun x => aheadOf x r)⟩)

theorem aheadOf_iff (a b : RecordRow) :
    aheadOf a b = true ↔ (b.score < a.score ∨ (a.score = b.score ∧ a.date < b.date)) := by
  simp [aheadOf]

theorem aheadOf_irrefl (a : RecordRow) : aheadOf a a = false := by
  simp [aheadOf]

instance : IsTotal RecordRow windowLe := by
  constructor
  intro a b
  unfold windowLe
  rcases Bool.eq_false_or_eq_true (aheadOf b a) with h | h
  · right
    rw [aheadOf_iff] at h
    rw [← Bool.not_eq_true, aheadOf_iff]
    omega
  · exact Or.inl h

theorem aheadOf_negtrans {a b c : RecordRow}
    (h1 : aheadOf a b = false) (h2 : aheadOf b c = false) : aheadOf a c = false := by
  rw [← Bool.not_eq_true, aheadOf_iff] at h1 h2 ⊢
  push_neg at h1 h2 ⊢
  omega

instance : IsTrans RecordRow windowLe :=
  ⟨fun _ _ _ h1 h2 => aheadOf_negtrans h2 h1⟩

theorem aheadOf_asymm {a b : RecordRow} (h : aheadOf a b = true) : aheadOf b a = false := by
  rw [aheadOf_iff] at h
  rw [← Bool.not_eq_true, aheadOf_iff]
  omega

theorem foldl_pickBetter_mem (xs : List RecordRow) (x : RecordRow) :
    xs.foldl pickBetter x = x ∨ xs.foldl pickBetter x ∈ xs := by
  induction xs generalizing x with
  | nil => exact Or.inl rfl
  | cons y ys ih =>
    simp only [List.foldl_cons]
    rcases ih (pickBetter x y) with h | h
    · rw [h]
      unfold pickBetter
      split
      · exact Or.inr (List.mem_cons_self ..)
      · exact Or.inl rfl
    · exact Or.inr (List.mem_cons_of_mem _ h)

theorem foldl_pickBetter_best (xs : List RecordRow) (x : RecordRow) :
    ∀ y ∈ x :: xs, aheadOf y (xs.foldl pickBetter x) = false := by
  induction xs generalizing x with
  | nil =>
    intro y hy
    have : y = x := by simpa using hy
    subst this
    exact aheadOf_irrefl y
  | cons z t ih =>
    intro y hy
    simp only [List.foldl_cons]
    have hw := ih (pickBetter x z)
    rcases List.mem_cons.mp hy with h | h
    · have h1 : aheadOf y (pickBetter x z) = false := by
        rw [h]
        unfold pickBetter
        split
        · next hc => exact aheadOf_asymm hc
        · exact aheadOf_irrefl x
      exact aheadOf_negtrans h1 (hw _ (List.mem_cons_self ..))
    · rcases List.mem_cons.mp h with h2 | h2
      · have h1 : aheadOf y (pickBetter x z) = false := by
          rw [h2]
          unfold pickBetter
          split
          · exact aheadOf_irrefl z
          · next hc => simpa using hc
        exact aheadOf_negtrans h1 (hw _ (List.mem_cons_self ..))
      · exact hw y (List.mem_cons_of_mem _ h2)

theorem bestForOwner_mem {l : List RecordRow} {o : ℕ} {r : RecordRow}
    (h : bestForOwner l o = some r) : r ∈ l ∧ r.ownerId = o := by
  unfold bestForOwner at h
  split at h
  · exact absurd h (by simp)
  · next x xs hf =>
    have hr : xs.foldl pickBetter x = r := Option.some.inj h
    have hmem : r ∈ x :: xs := by
      rcases foldl_pickBetter_mem xs x with h2 | h2
      · rw [hr] at h2
        rw [h2]
        exact List.mem_cons_self ..
      · rw [hr] at h2
        exact List.mem_cons_of_mem _ h2
    have hrf : r ∈ l.filter (fun s => s.ownerId == o) := by
      rw [hf]
      exact hmem
    have hm := List.mem_filter.mp hrf
    refine ⟨hm.1, by simpa using hm.2⟩

theorem bestForOwner_best {l : List RecordRow} {o : ℕ} {r : RecordRow}
    (h : bestForOwner l o = some r) :
    ∀ s ∈ l, s.ownerId = o → aheadOf s r = false := by
  intro s hs hso
  unfold bestForOwner at h
  split at h
  · exact absurd h (by simp)
  · next x xs hf =>
    have hsf : s ∈ x :: xs := by
      rw [← hf]
      exact List.mem_filter.mpr ⟨hs, by simp [hso]⟩
    have := foldl_pickBetter_best xs x s hsf
    rwa [Option.some.inj h] at this

theorem bestForOwner_isSome {l : List RecordRow} {o : ℕ} {r : RecordRow}
    (hr : r ∈ l) (ho : r.ownerId = o) : ∃ s, bestForOwner l o = some s := by
  unfold bestForOwner
  split
  · next hf =>
    exfalso
    have : r ∈ l.filter (fun s => s.ownerId == o) :=
      List.mem_filter.mpr ⟨hr, by simp [ho]⟩
    rw [hf] at this
    simp at this
  · exact ⟨_, rfl⟩

theorem mem_distinctOnOwner {l : List RecordRow} {r : RecordRow}
    (h : r ∈ distinctOnOwner l) : r ∈ l ∧ bestForOwner l r.ownerId = some r := by
  unfold distinctOnOwner at h
  rw [List.mem_filterMap] at h
  obtain ⟨o, _, hb⟩ := h
  have hm := bestForOwner_mem hb
  exact ⟨hm.1, by rw [hm.2]; exact hb⟩

theorem distinctOnOwner_owners_nodup (l : List RecordRow) :
    ((distinctOnOwner l).map (fun r => r.ownerId)).Nodup := by
  unfold distinctOnOwner
  have key : ∀ os : List ℕ, os.Nodup →
      ((os.filterMap (bestForOwner l)).map (fun r => r.ownerId)).Nodup := by
    intro os
    induction os with
    | nil =>
      intro _
      simp
    | cons o t ih =>
      intro hos
      rcases List.nodup_cons.mp hos with ⟨hno, hnt⟩
      rw [List.filterMap_cons]
      cases hb : bestForOwner l o with
      | none => exact ih hnt
      | some r =>
        rw [List.map_cons]
        refine List.nodup_cons.mpr ⟨?_, ih hnt⟩
        intro hmem
        rw [List.mem_map] at hmem
        obtain ⟨s, hs, hso⟩ := hmem
        rw [List.mem_filterMap] at hs
        obtain ⟨o2, ho2, hb2⟩ := hs
        have e1 := (bestForOwner_mem hb).2
        have e2 := (bestForOwner_mem hb2).2
        have : o2 = o := by rw [← e2, hso, e1]
        subst this
        exact hno ho2
  exact key _ (List.nodup_dedup _)

theorem countP_lt_of_witness {α : Type} {p q : α → Bool} {l : List α}
    (hpq : ∀ x ∈ l, p x = true → q x = true) {a : α} (ha : a ∈ l)
    (hqa : q a = true) (hpa : p a = false) : l.countP p < l.countP q := by
  induction l with
  | nil => simp at ha
  | cons b t ih =>
    rw [List.countP_cons, List.countP_cons]
    have hmono : t.countP p ≤ t.countP q :=
      List.countP_mono_left (fun x hx => hpq x (List.mem_cons_of_mem _ hx))
    rcases List.mem_cons.mp ha with rfl | hat
    · rw [hqa, hpa]
      simp only [Bool.false_eq_true, if_false, if_true]
      omega
    · have hlt := ih (fun x hx => hpq x (List.mem_cons_of_mem _ hx)) hat
      have hif : (if p b = true then 1 else 0) ≤ (if q b = true then 1 else 0) := by
        by_cases hb : p b = true
        · rw [if_pos hb, if_pos (hpq b (List.mem_cons_self ..) hb)]
        · rw [if_neg hb]
          split <;> omega
      omega

theorem mem_lbSorted {db : Db} {uid ctype : String} {r : RecordRow} :
    r ∈ lbSorted db uid ctype ↔ r ∈ distinctOnOwner (rankedRecords db uid ctype) := by
  unfold lbSorted
  exact (List.perm_insertionSort windowLe _).mem_iff

theorem rank_eq_of_mem {db : Db} {uid ctype : String} {e : LBEntry}
    (he : e ∈ queryLeaderboard db uid ctype) :
    e.rank = 1 + (queryLeaderboard db uid ctype).countP (fun x => aheadOf x.row e.row) := by
  unfold queryLeaderboard at he ⊢
  obtain ⟨r, _, rfl⟩ := List.mem_map.mp he
  simp only [List.countP_map]
  rfl

/-- C1: the leaderboard produced by queryLeaderboard is ordered by score
descending with ties broken by date ascending; each rank equals the SQL
rank() over exactly this window order, namely one more than the number of
rows strictly ahead; with equal scores, the earlier record receives a
strictly smaller rank. -/
theorem C1_leaderboard_rank_order (db : Db) (uid ctype : String) :
    (queryLeaderboard db uid ctype).Pairwise (fun a b => windowLe a.row b.row) ∧
    (∀ e ∈ queryLeaderboard db uid ctype,
      e.rank = 1 + (queryLeaderboard db uid ctype).countP (fun x => aheadOf x.row e.row)) ∧
    (∀ e1 ∈ queryLeaderboard db uid ctype, ∀ e2 ∈ queryLeaderboard db uid ctype,
      e1.row.score = e2.row.score → e1.row.date < e2.row.date →
      e1.rank < e2.rank) := by
  refine ⟨?_, fun e he => rank_eq_of_mem he, ?_⟩
  · unfold queryLeaderboard
    rw [List.pairwise_map]
    exact List.sorted_insertionSort windowLe _
  · intro e1 h1 e2 h2 hs hd
    rw [rank_eq_of_mem h1, rank_eq_of_mem h2]
    have hsub : ∀ x ∈ queryLeaderboard db uid ctype,
        aheadOf x.row e1.row = true → aheadOf x.row e2.row = true := by
      intro x _ hax
      rw [aheadOf_iff] at hax ⊢
      omega
    have hq : aheadOf e1.row e2.row = true := by
      rw [aheadOf_iff]
      omega
    have := countP_lt_of_witness hsub h1 hq (aheadOf_irrefl e1.row)
    omega

/-- C8: on every chart leaderboard each player appears at most once: only
ranked=true records of the chart are considered, the owners of the entries
are pairwise distinct, every entry carries the single best record of its
owner (highest score, ties broken by earliest date), and every owner of a
qualifying record has an entry. -/
theorem C8_distinct_best_per_owner (db : Db) (uid ctype : String) :
    ((queryLeaderboard db uid ctype).map (fun e => e.row.ownerId)).Nodup ∧
    (∀ e ∈ queryLeaderboard db uid ctype,
      e.row ∈ db.records ∧ e.row.ranked = true ∧
        chartIdFor db uid ctype = some e.row.chartId) ∧
    (∀ e ∈ queryLeaderboard db uid ctype, ∀ r ∈ db.records,
      chartIdFor db uid ctype = some r.chartId → r.ranked = true →
      r.ownerId = e.row.ownerId → aheadOf r e.row = false) ∧
    (∀ r ∈ db.records, chartIdFor db uid ctype = some r.chartId → r.ranked = true →
      ∃ e ∈ queryLeaderboard db uid ctype, e.row.ownerId = r.ownerId) := by
  have hmem : ∀ {e : LBEntry}, e ∈ queryLeaderboard db uid ctype →
      e.row ∈ distinctOnOwner (rankedRecords db uid ctype) := by
    intro e he
    unfold queryLeaderboard at he
    obtain ⟨r, hr, rfl⟩ := List.mem_map.mp he
    exact mem_lbSorted.mp hr
  have hrankedMem : ∀ {r : RecordRow}, r ∈ rankedRecords db uid ctype ↔
      (r ∈ db.records ∧ chartIdFor db uid ctype = some r.chartId ∧ r.ranked = true) := by
    intro r
    unfold rankedRecords
    rw [List.mem_filter]
    constructor
    · intro ⟨h1, h2⟩
      simp only [Bool.and_eq_true, beq_iff_eq] at h2
      exact ⟨h1, h2.1, h2.2⟩
    · intro ⟨h1, h2, h3⟩
      exact ⟨h1, by simp [h2, h3]⟩
  refine ⟨?_, ?_, ?_, ?_⟩
  · unfold queryLeaderboard
    rw [List.map_map]
    have hperm := (List.perm_insertionSort windowLe
      (distinctOnOwner (rankedRecords db uid ctype))).map (fun r => r.ownerId)
    have := distinctOnOwner_owners_nodup (rankedRecords db uid ctype)
    exact hperm.nodup_iff.mpr this
  · intro e he
    have hd := hmem he
    have hr := (mem_distinctOnOwner hd).1
    obtain ⟨ha, hb, hc⟩ := hrankedMem.mp hr
    exact ⟨ha, hc, hb⟩
  · intro e he r hr hc hk ho
    have hd := hmem he
    have hbest := (mem_distinctOnOwner hd).2
    exact bestForOwner_best hbest r (hrankedMem.mpr ⟨hr, hc, hk⟩) ho
  · intro r hr hc hk
    have hrk : r ∈ rankedRecords db uid ctype := hrankedMem.mpr ⟨hr, hc, hk⟩
    obtain ⟨s, hs⟩ := bestForOwner_isSome hrk rfl
    have hsd : s ∈ distinctOnOwner (rankedRecords db uid ctype) := by
      unfold distinctOnOwner
      rw [List.mem_filterMap]
      refine ⟨r.ownerId, ?_, hs⟩
      rw [List.mem_dedup, List.mem_map]
      exact ⟨r, hrk, rfl⟩
    have hss : s ∈ lbSorted db uid ctype := mem_lbSorted.mpr hsd
    refine ⟨⟨s, 1 + (lbSorted db uid ctype).countP (fun x => aheadOf x s)⟩, ?_, ?_⟩
    · unfold queryLeaderboard
      exact List.mem_map.mpr ⟨s, hss, rfl⟩
    · exact (bestForOwner_mem hs).2

/-- Sequential clamping of the userLimit query parameter in getChartRanking:
a negative value becomes 0, then a value above 10 becomes 10. -/
def clampUserLimit (ul : ℚ) : ℚ :=
  if ul < 0 then 0 else if ul > 10 then 10 else ul

/-- The user query parameter of getChartRanking: either a value that parses
as a UUID, matched against users.id, or a name matched against users.uid. -/
inductive UserParam where
  | byId (id : ℕ)
  | byName (name : String)

/-- Resolution of the user parameter to a user id as in the rank subquery:
u_id=:user for a UUID, u_id=(SELECT id FROM users WHERE uid=:user) for a
name; a missing name yields NULL, which matches no leaderboard row. -/
def resolveUserParam (users : List UserRow) : UserParam → Option ℕ
  | .byId i => some i
  | .byName n => (users.find? (fun u => u.uid == n)).map (fun u => u.id)

/-- The user branch of getChartRanking: WITH lb AS (full leaderboard)
SELECT * FROM lb WHERE abs(rank - (SELECT rank FROM lb WHERE u_id=...))
<= :userLimit, where userLimit was clamped first. When the user resolves to
nothing or has no leaderboard row, the NULL comparison keeps no rows. -/
def getChartRankingUser (db : Db) (uid ctype : String) (p : UserParam)
    (userLimit : ℚ) : List LBEntry :=
  match resolveUserParam db.users p with
  | none => []
  | some u =>
    match (queryLeaderboard db uid ctype).find? (fun e => e.row.ownerId == u) with
    | none => []
    | some ue =>
      (queryLeaderboard db uid ctype).filter
        (fun e => (((e.rank : ℤ) - (ue.rank : ℤ)).natAbs : ℚ) ≤ clampUserLimit userLimit)

theorem clampUserLimit_eq (ul : ℚ) : clampUserLimit ul = max 0 (min ul 10) := by
  simp only [clampUserLimit, max_def, min_def]
  split_ifs <;> linarith

/-- C2: whenever the user parameter resolves to a player that appears on the
chart leaderboard, getChartRanking returns exactly the rows of the full
leaderboard whose rank differs from the rank of that player by at most userLimit,
with userLimit first clamped into the interval [0, 10]. -/
theorem C2_rank_window_around_user (db : Db) (uid ctype : String) (p : UserParam)
    (userLimit : ℚ) (u : ℕ) (ue : LBEntry)
    (hres : resolveUserParam db.users p = some u)
    (hue : (queryLeaderboard db uid ctype).find? (fun e => e.row.ownerId == u) = some ue) :
    ∀ e : LBEntry, e ∈ getChartRankingUser db uid ctype p userLimit ↔
      (e ∈ queryLeaderboard db uid ctype ∧
        (((e.rank : ℤ) - (ue.rank : ℤ)).natAbs : ℚ) ≤ max 0 (min userLimit 10)) := by
  intro e
  simp only [getChartRankingUser, hres, hue]
  rw [List.mem_filter, clampUserLimit_eq]
  constructor
  · intro ⟨h1, h2⟩
    exact ⟨h1, by simpa using h2⟩
  · intro ⟨h1, h2⟩
    exact ⟨h1, by simpa using h2⟩

/-- Clamping of the limit query parameter of getLevels into [0, 200]. -/
def clampPageLimit (l : ℚ) : ℚ :=
  if l > 200 then 200 else if l < 0 then 0 else l

/-- Outcome of the paging logic of LevelController.getLevels: the
BadRequestError on an invalid page number, a null body carrying only the
X-Total-Entries count, or a page with headers plus the limit and offset
handed to the query. -/
inductive LevelsOutcome where
  | badRequest
  | okNull (totalEntries : ℕ)
  | ok (totalEntries : ℕ) (totalPage : ℤ) (currentPage : ℚ) (limit offset : ℚ)
deriving DecidableEq

/-- The paging control flow of LevelController.getLevels: the limit is
clamped, an invalid page number throws before the query runs, the count
query sets X-Total-Entries, and a clamped limit of 0 returns null. The
matching argument stands for the levels satisfying the query filters. -/
def getLevels (pageNum pageLimit : ℚ) (matching : List ℕ) : LevelsOutcome :=
  if pageNum < 0 ∨ ¬ pageNum.isInt then .badRequest
  else if clampPageLimit pageLimit = 0 then .okNull matching.length
  else .ok matching.length ⌈(matching.length : ℚ) / clampPageLimit pageLimit⌉ pageNum
    (clampPageLimit pageLimit) (clampPageLimit pageLimit * pageNum)

/-- C10: getLevels clamps the page limit into [0, 200]; a negative or
non-integer page number is rejected with BadRequestError no matter what the
database holds; and when the clamped limit is 0 the endpoint returns a null
body while still reporting the matching-level count. -/
theorem C10_paging (pageNum pageLimit : ℚ) (matching : List ℕ) :
    (0 ≤ clampPageLimit pageLimit ∧ clampPageLimit pageLimit ≤ 200) ∧
    ((pageNum < 0 ∨ ¬ pageNum.isInt) →
      getLevels pageNum pageLimit matching = .badRequest) ∧
    (¬ (pageNum < 0 ∨ ¬ pageNum.isInt) → clampPageLimit pageLimit = 0 →
      getLevels pageNum pageLimit matching = .okNull matching.length) := by
  refine ⟨?_, ?_, ?_⟩
  · unfold clampPageLimit
    split_ifs <;> constructor <;> linarith
  · intro h
    unfold getLevels
    rw [if_pos h]
  · intro h h0
    unfold getLevels
    rw [if_neg h, if_pos h0]

/-- SQL avg aggregate over a list of rationals: NULL on the empty set. -/
def sqlAvg (l : List ℚ) : Option ℚ :=
  match l with
  | [] => none
  | _ => some (l.sum / l.length)

/-- The aux_rating subselect of getLevels:
(60 + avg(rating) * count(rating)) * 1.0 / (10 + count(rating)); the *1.0 is
a numeric cast and the whole expression is NULL when avg is NULL. -/
def aux_rating (l : List ℚ) : Option ℚ :=
  (sqlAvg l).map (fun m => (60 + m * l.length) / (10 + l.length))

/-- Modelled from the spec: the claimed Bayesian-weighted display rating
(60 + m * n) / (10 + n) for n user ratings of mean m. -/
def specBayesRating (n : ℕ) (m : ℚ) : ℚ :=
  (60 + m * n) / (10 + n)

/-- A level paired with its submitted ratings, for the rating sort. -/
structure RatedLevel where
  id : ℕ
  ratings : List ℚ

/-- The ORDER BY aux_rating ASC/DESC NULLS LAST comparison of getLevels. -/
def nullsLastLeB (asc : Bool) : Option ℚ → Option ℚ → Bool
  | some x, some y => if asc then decide (x ≤ y) else decide (y ≤ x)
  | some _, none => true
  | none, some _ => false
  | none, none => true

/-- The rating sort order on levels induced by nullsLastLeB. -/
def ratingOrder (asc : Bool) (a b : RatedLevel) : Prop :=
  nullsLastLeB asc (aux_rating a.ratings) (aux_rating b.ratings) = true

instance (asc : Bool) : DecidableRel (ratingOrder asc) :=
  fun a b =>
    instDecidableEqBool (nullsLastLeB asc (aux_rating a.ratings) (aux_rating b.ratings)) true

/-- Sorting levels by the rating key, as ORDER BY aux_rating ... NULLS LAST. -/
def sortLevelsByRating (asc : Bool) (ls : List RatedLevel) : List RatedLevel :=
  List.insertionSort (ratingOrder asc) ls

theorem nullsLastLeB_total (asc : Bool) (a b : Option ℚ) :
    nullsLastLeB asc a b = true ∨ nullsLastLeB asc b a = true := by
  cases a with
  | none =>
    cases b with
    | none => exact Or.inl rfl
    | some y => exact Or.inr rfl
  | some x =>
    cases b with
    | none => exact Or.inl rfl
    | some y =>
      cases asc with
      | false =>
        rcases le_total y x with h | h
        · exact Or.inl (by simp [nullsLastLeB, h])
        · exact Or.inr (by simp [nullsLastLeB, h])
      | true =>
        rcases le_total x y with h | h
        · exact Or.inl (by simp [nullsLastLeB, h])
        · exact Or.inr (by simp [nullsLastLeB, h])

theorem nullsLastLeB_trans (asc : Bool) {a b c : Option ℚ}
    (h1 : nullsLastLeB asc a b = true) (h2 : nullsLastLeB asc b c = true) :
    nullsLastLeB asc a c = true := by
  cases a with
  | none =>
    cases b with
    | none =>
      cases c with
      | none => rfl
      | some z => exact absurd h2 (by simp [nullsLastLeB])
    | some y => exact absurd h1 (by simp [nullsLastLeB])
  | some x =>
    cases c with
    | none => rfl
    | some z =>
      cases b with
      | none => exact absurd h2 (by simp [nullsLastLeB])
      | some y =>
        cases asc with
        | false =>
          simp only [nullsLastLeB, if_neg, Bool.false_eq_true, if_false,
            decide_eq_true_eq] at h1 h2 ⊢
          linarith
        | true =>
          simp only [nullsLastLeB, if_pos, if_true, decide_eq_true_eq] at h1 h2 ⊢
          linarith

/-- C3: the aux_rating aggregate used by getLevels for sorting equals the
claimed Bayesian formula (60 + m * n) / (10 + n) over the n ratings of mean
m, is NULL exactly when the level has no ratings, and sorting by the rating
key places NULL-rated levels after every non-NULL one in either direction. -/
theorem C3_bayesian_rating :
    (∀ l : List ℚ, l ≠ [] →
      aux_rating l = some (specBayesRating l.length (l.sum / l.length))) ∧
    (∀ l : List ℚ, (aux_rating l = none ↔ l = [])) ∧
    (∀ (asc : Bool) (ls : List RatedLevel),
      (sortLevelsByRating asc ls).Pairwise
        (fun a b => aux_rating a.ratings = none → aux_rating b.ratings = none)) := by
  refine ⟨?_, ?_, ?_⟩
  · intro l hl
    cases l with
    | nil => exact absurd rfl hl
    | cons x t => simp [aux_rating, sqlAvg, specBayesRating]
  · intro l
    cases l with
    | nil => simp [aux_rating, sqlAvg]
    | cons x t => simp [aux_rating, sqlAvg]
  · intro asc ls
    haveI : IsTotal RatedLevel (ratingOrder asc) :=
      ⟨fun a b => nullsLastLeB_total asc (aux_rating a.ratings) (aux_rating b.ratings)⟩
    haveI : IsTrans RatedLevel (ratingOrder asc) :=
      ⟨fun _ _ _ h1 h2 => nullsLastLeB_trans asc h1 h2⟩
    have hs := List.sorted_insertionSort (ratingOrder asc) ls
    refine hs.imp ?_
    intro a b hab hna
    unfold ratingOrder at hab
    rw [hna] at hab
    cases hb : aux_rating b.ratings with
    | none => rfl
    | some y =>
      rw [hb] at hab
      exact absurd hab (by simp [nullsLastLeB])

/-- A row of the level_ratings table. -/
structure RatingRow where
  levelId : ℕ
  userId : ℕ
  rating : ℚ
deriving DecidableEq

/-- The aggregate computed by the getRatings SQL: average, total count, and
the per-value distribution over the buckets generate_series(1, 10). -/
structure RatingsAgg where
  average : Option ℚ
  total : ℕ
  distribution : List ℕ
deriving DecidableEq

/-- A redis cache entry: the serialized aggregate and its expiry instant. -/
structure CacheEntry where
  value : RatingsAgg
  expiry : ℕ
deriving DecidableEq

/-- The state touched by getRatings and updateRatings: the levels and
level_ratings tables plus the redis cache keyed by level uid. -/
structure SrvState where
  levels : List LevelRow
  ratings : List RatingRow
  cache : List (String × CacheEntry)
deriving DecidableEq

/-- redis GET with expiry semantics: a stored value is visible until its
expiry instant. -/
def redisGet (cache : List (String × CacheEntry)) (k : String) (now : ℕ) :
    Option RatingsAgg :=
  match cache.find? (fun e => e.1 == k) with
  | some e => if now < e.2.expiry then some e.2.value else none
  | none => none

/-- redis SETEX: stores a value under a key with a ttl, replacing any
previous entry for the key. -/
def redisSetex (cache : List (String × CacheEntry)) (k : String) (ttl now : ℕ)
    (v : RatingsAgg) : List (String × CacheEntry) :=
  (k, ⟨v, now + ttl⟩) :: cache.filter (fun e => !(e.1 == k))

/-- redis DEL for one key. -/
def redisDel (cache : List (String × CacheEntry)) (k : String) :
    List (String × CacheEntry) :=
  cache.filter (fun e => !(e.1 == k))

/-- The rows of level_ratings belonging to the level with the given uid,
that is the ratings CTE of the getRatings SQL. -/
def levelRatings (s : SrvState) (uid : String) : List RatingRow :=
  s.ratings.filter (fun r => levelIdFor s.levels uid == some r.levelId)

/-- The aggregate SELECT of getRatings over the ratings CTE. -/
def computeAgg (rs : List RatingRow) : RatingsAgg :=
  { average := sqlAvg (rs.map (fun r => r.rating))
    total := rs.length
    distribution := (List.range' 1 10).map
      (fun i => (rs.filter (fun r => r.rating == (i : ℚ))).length) }

/-- The SELECT rating FROM ratings WHERE userId=... lookup of getRatings. -/
def userRatingLookup (s : SrvState) (uid : String) (u : ℕ) : Option ℚ :=
  ((levelRatings s uid).find? (fun r => r.userId == u)).map (fun r => r.rating)

/-- JavaScript parseInt on a numeric value: truncation toward zero. -/
def jsParseInt (v : ℚ) : ℤ :=
  if 0 ≤ v then ⌊v⌋ else -⌊-v⌋

/-- The body returned by getRatings: the aggregate plus, for an
authenticated caller, the rating field. -/
structure GetRatingsResult where
  agg : RatingsAgg
  rating : Option ℚ
deriving DecidableEq

/-- LevelController.getRatings: a live cache entry is returned as stored
(with a fresh per-user rating lookup); otherwise the aggregate is computed,
cached for 3600 seconds, and returned; on the miss path the user rating goes
through parseInt and is dropped when falsy. -/
def getRatings (uid : String) (user : Option ℕ) (now : ℕ) (s : SrvState) :
    GetRatingsResult × SrvState :=
  match redisGet s.cache uid now with
  | some agg =>
    ({ agg := agg
       rating := match user with
         | some u => userRatingLookup s uid u
         | none => none }, s)
  | none =>
    ({ agg := computeAgg (levelRatings s uid)
       rating := match user with
         | some u =>
           match userRatingLookup s uid u with
           | some v => if jsParseInt v = 0 then none else some ((jsParseInt v : ℤ) : ℚ)
           | none => none
         | none => none },
     { s with cache := redisSetex s.cache uid 3600 now (computeAgg (levelRatings s uid)) })

/-- The two error classes thrown by updateRatings. -/
inductive UpdErr where
  | notFound
  | badRequest
deriving DecidableEq

/-- JavaScript falsiness of the rating body parameter: absent or zero. -/
def ratingFalsy : Option ℚ → Bool
  | none => true
  | some v => v == 0

/-- The ON CONFLICT DO UPDATE insert of updateRatings: update the existing
(levelId, userId) row or append a fresh one. -/
def upsertRating (rs : List RatingRow) (lid u : ℕ) (v : ℚ) : List RatingRow :=
  if rs.any (fun r => r.levelId == lid && r.userId == u) then
    rs.map (fun r =>
      if r.levelId == lid && r.userId == u then { r with rating := v } else r)
  else rs ++ [⟨lid, u, v⟩]

/-- The rows surviving the DELETE of the remove-rating branch. -/
def keptRatings (s : SrvState) (uid : String) (u : ℕ) : List RatingRow :=
  s.ratings.filter (fun r =>
    !(levelIdFor s.levels uid == some r.levelId && r.userId == u))

/-- The state after the remove-rating branch: rows deleted, cache key
deleted. -/
def deleteState (s : SrvState) (uid : String) (u : ℕ) : SrvState :=
  { s with ratings := keptRatings s uid u, cache := redisDel s.cache uid }

/-- The state after the store-rating branch: row upserted, cache key
deleted. -/
def insertState (s : SrvState) (uid : String) (lid u : ℕ) (v : ℚ) : SrvState :=
  { s with ratings := upsertRating s.ratings lid u v, cache := redisDel s.cache uid }

/-- LevelController.updateRatings: a falsy rating deletes the caller rating
(NotFoundError when nothing was deleted); otherwise a rating outside
(0, 10] raises BadRequestError, a missing level raises NotFoundError from
the NOT NULL violation, and a stored rating ends with the cache key deleted
and getRatings rerun. -/
def updateRatings (uid : String) (u : ℕ) (rating : Option ℚ) (now : ℕ)
    (s : SrvState) : Except UpdErr GetRatingsResult × SrvState :=
  if ratingFalsy rating then
    if (keptRatings s uid u).length = s.ratings.length then
      (Except.error UpdErr.notFound, s)
    else
      (Except.ok (getRatings uid (some u) now (deleteState s uid u)).1,
        (getRatings uid (some u) now (deleteState s uid u)).2)
  else
    if 10 < rating.getD 0 ∨ rating.getD 0 ≤ 0 then
      (Except.error UpdErr.badRequest, s)
    else
      match levelIdFor s.levels uid with
      | none => (Except.error UpdErr.notFound, s)
      | some lid =>
        (Except.ok
          (getRatings uid (some u) now (insertState s uid lid u (rating.getD 0))).1,
          (getRatings uid (some u) now (insertState s uid lid u (rating.getD 0))).2)

theorem getRatings_preserves (uid : String) (user : Option ℕ) (now : ℕ) (s : SrvState) :
    (getRatings uid user now s).2.ratings = s.ratings ∧
    (getRatings uid user now s).2.levels = s.levels := by
  unfold getRatings
  split <;> exact ⟨rfl, rfl⟩

theorem getRatings_miss {uid : String} {user : Option ℕ} {now : ℕ} {s : SrvState}
    (h : redisGet s.cache uid now = none) :
    (getRatings uid user now s).1.agg = computeAgg (levelRatings s uid) ∧
    (getRatings uid user now s).2 =
      { s with cache := redisSetex s.cache uid 3600 now (computeAgg (levelRatings s uid)) } := by
  unfold getRatings
  rw [h]
  exact ⟨rfl, rfl⟩

theorem getRatings_hit {uid : String} {user : Option ℕ} {now : ℕ} {s : SrvState}
    {v : RatingsAgg} (h : redisGet s.cache uid now = some v) :
    (getRatings uid user now s).1.agg = v ∧ (getRatings uid user now s).2 = s := by
  unfold getRatings
  rw [h]
  exact ⟨rfl, rfl⟩

theorem find?_setex (c : List (String × CacheEntry)) (k : String) (ttl now : ℕ)
    (v : RatingsAgg) :
    (redisSetex c k ttl now v).find? (fun e => e.1 == k) = some (k, ⟨v, now + ttl⟩) := by
  unfold redisSetex
  exact List.find?_cons_of_pos _ (by simp)

theorem redisGet_setex_self (c : List (String × CacheEntry)) (k : String) (now : ℕ)
    (v : RatingsAgg) : redisGet (redisSetex c k 3600 now v) k now = some v := by
  unfold redisGet
  rw [find?_setex]
  show (if now < now + 3600 then some v else none) = some v
  rw [if_pos (by omega)]

theorem redisGet_del (c : List (String × CacheEntry)) (k : String) (t : ℕ) :
    redisGet (redisDel c k) k t = none := by
  unfold redisGet redisDel
  cases hf : (c.filter (fun e => !(e.1 == k))).find? (fun e => e.1 == k) with
  | none => rfl
  | some e =>
    exfalso
    have h1 := List.find?_some hf
    have h2 := (List.mem_filter.mp (List.mem_of_find?_eq_some hf)).2
    rw [h1] at h2
    simp at h2

theorem updateRatings_ok_shape {uid : String} {u : ℕ} {rating : Option ℚ} {now : ℕ}
    {s : SrvState} {r : GetRatingsResult}
    (hok : (updateRatings uid u rating now s).1 = Except.ok r) :
    ∃ s2 : SrvState, s2.cache = redisDel s.cache uid ∧
      updateRatings uid u rating now s =
        (Except.ok (getRatings uid (some u) now s2).1,
          (getRatings uid (some u) now s2).2) := by
  unfold updateRatings at hok ⊢
  by_cases hf : ratingFalsy rating = true
  · rw [if_pos hf] at hok ⊢
    by_cases hlen : (keptRatings s uid u).length = s.ratings.length
    · rw [if_pos hlen] at hok
      exact absurd hok (by simp)
    · rw [if_neg hlen]
      exact ⟨deleteState s uid u, rfl, rfl⟩
  · rw [Bool.not_eq_true] at hf
    rw [hf] at hok ⊢
    simp only [Bool.false_eq_true, if_false]
    simp only [Bool.false_eq_true, if_false] at hok
    by_cases hv : 10 < rating.getD 0 ∨ rating.getD 0 ≤ 0
    · rw [if_pos hv] at hok
      exact absurd hok (by simp)
    · rw [if_neg hv] at hok ⊢
      cases hlid : levelIdFor s.levels uid with
      | none =>
        rw [hlid] at hok
        exact absurd hok (by simp)
      | some lid =>
        exact ⟨insertState s uid lid u (rating.getD 0), rfl, rfl⟩

/-- C7: the level-ratings cache is a plain TTL cache. A getRatings miss
computes the aggregate, stores it under the level key with expiry now + 3600
and leaves the tables untouched; a live cache entry is served back without
touching the state; and a successful updateRatings deletes the cache entry
before rerunning getRatings, so its reply is the aggregate recomputed from
the updated table, re-cached fresh, never the stale cached value. -/
theorem C7_ttl_cache :
    (∀ (uid : String) (user : Option ℕ) (now : ℕ) (s : SrvState),
      redisGet s.cache uid now = none →
      (getRatings uid user now s).1.agg = computeAgg (levelRatings s uid) ∧
      (getRatings uid user now s).2.cache.find? (fun e => e.1 == uid) =
        some (uid, ⟨computeAgg (levelRatings s uid), now + 3600⟩) ∧
      (getRatings uid user now s).2.ratings = s.ratings) ∧
    (∀ (uid : String) (user : Option ℕ) (now : ℕ) (s : SrvState) (v : RatingsAgg),
      redisGet s.cache uid now = some v →
      (getRatings uid user now s).1.agg = v ∧ (getRatings uid user now s).2 = s) ∧
    (∀ (uid : String) (u : ℕ) (rating : Option ℚ) (now : ℕ) (s : SrvState)
      (r : GetRatingsResult),
      (updateRatings uid u rating now s).1 = Except.ok r →
      r.agg = computeAgg (levelRatings (updateRatings uid u rating now s).2 uid) ∧
      (updateRatings uid u rating now s).2.cache.find? (fun e => e.1 == uid) =
        some (uid, ⟨r.agg, now + 3600⟩)) := by
  refine ⟨?_, ?_, ?_⟩
  · intro uid user now s h
    obtain ⟨h1, h2⟩ := @getRatings_miss uid user now s h
    refine ⟨h1, ?_, (getRatings_preserves uid user now s).1⟩
    rw [h2]
    exact find?_setex s.cache uid 3600 now (computeAgg (levelRatings s uid))
  · intro uid user now s v h
    exact getRatings_hit h
  · intro uid u rating now s r hok
    obtain ⟨s2, hc2, heq⟩ := updateRatings_ok_shape hok
    have hmiss : redisGet s2.cache uid now = none := by
      rw [hc2]
      exact redisGet_del s.cache uid now
    obtain ⟨hagg, hst⟩ := @getRatings_miss uid (some u) now s2 hmiss
    have hr : (getRatings uid (some u) now s2).1 = r := by
      rw [heq] at hok
      exact Except.ok.inj hok
    have hupd2 : (updateRatings uid u rating now s).2 = (getRatings uid (some u) now s2).2 := by
      rw [heq]
    constructor
    · rw [← hr, hagg, hupd2, hst]
      rfl
    · rw [hupd2, hst, ← hr, hagg]
      exact find?_setex s2.cache uid 3600 now (computeAgg (levelRatings s2 uid))

theorem mem_upsertRating (rs : List RatingRow) (lid u : ℕ) (v : ℚ) :
    (⟨lid, u, v⟩ : RatingRow) ∈ upsertRating rs lid u v := by
  unfold upsertRating
  split
  · next hany =>
    rw [List.any_eq_true] at hany
    obtain ⟨r, hr, hcond⟩ := hany
    refine List.mem_map.mpr ⟨r, hr, ?_⟩
    rw [if_pos hcond]
    simp only [Bool.and_eq_true, beq_iff_eq] at hcond
    obtain ⟨rl, ru, rr⟩ := r
    simp only at hcond
    rw [hcond.1, hcond.2]
  · exact List.mem_append_right _ (by simp)

/-- C9: calling updateRatings with a missing or zero rating runs the delete
branch: the rating rows of the caller for the level are removed and the
reply is not an error when at least one row existed, while NotFoundError is
thrown with the state unchanged exactly when the caller had no rating row
for the level, which covers both a missing level and an existing level the
caller never rated. -/
theorem C9_falsy_rating_delete (uid : String) (u : ℕ) (rating : Option ℚ) (now : ℕ)
    (s : SrvState) (hfalsy : ratingFalsy rating = true) :
    ((keptRatings s uid u).length = s.ratings.length →
      updateRatings uid u rating now s = (Except.error UpdErr.notFound, s)) ∧
    ((keptRatings s uid u).length ≠ s.ratings.length →
      (updateRatings uid u rating now s).1 ≠ Except.error UpdErr.notFound ∧
      (updateRatings uid u rating now s).2.ratings = keptRatings s uid u) ∧
    ((keptRatings s uid u).length = s.ratings.length ↔
      ¬ ∃ r ∈ s.ratings, levelIdFor s.levels uid = some r.levelId ∧ r.userId = u) := by
  refine ⟨?_, ?_, ?_⟩
  · intro hlen
    unfold updateRatings
    rw [if_pos hfalsy, if_pos hlen]
  · intro hlen
    unfold updateRatings
    rw [if_pos hfalsy, if_neg hlen]
    exact ⟨by simp, (getRatings_preserves uid (some u) now (deleteState s uid u)).1⟩
  · unfold keptRatings
    rw [List.filter_length_eq_length]
    constructor
    · intro hall ⟨r, hr, h1, h2⟩
      have hb := hall r hr
      rw [h1] at hb
      simp [h2] at hb
    · intro hnone r hr
      cases hb : (levelIdFor s.levels uid == some r.levelId && r.userId == u) with
      | false => rfl
      | true =>
        exfalso
        simp only [Bool.and_eq_true, beq_iff_eq] at hb
        exact hnone ⟨r, hr, hb.1, hb.2⟩

/-- C4 amended: updateRatings accepts a nonzero rating exactly on the
half-open interval (0, 10]: a nonzero rating above 10 or at most 0 is
rejected with BadRequestError and the state is unchanged, while any rating
with 0 < v <= 10, fractional values below 1 included, is stored for an
existing level. -/
theorem C4_rating_range (uid : String) (u : ℕ) (v : ℚ) (now : ℕ) (s : SrvState)
    (lid : ℕ) (hv : v ≠ 0) :
    (¬ (0 < v ∧ v ≤ 10) →
      updateRatings uid u (some v) now s = (Except.error UpdErr.badRequest, s)) ∧
    ((0 < v ∧ v ≤ 10) → levelIdFor s.levels uid = some lid →
      (updateRatings uid u (some v) now s).1 ≠ Except.error UpdErr.badRequest ∧
      (⟨lid, u, v⟩ : RatingRow) ∈ (updateRatings uid u (some v) now s).2.ratings) := by
  have hfalsy : ratingFalsy (some v) = false := by
    simp [ratingFalsy, hv]
  constructor
  · intro hnr
    unfold updateRatings
    rw [hfalsy]
    simp only [Bool.false_eq_true, if_false]
    have hcond : 10 < (some v).getD 0 ∨ (some v).getD 0 ≤ 0 := by
      simp only [Option.getD_some]
      by_contra hcon
      push_neg at hcon
      exact hnr ⟨hcon.2, hcon.1⟩
    rw [if_pos hcond]
  · intro hr hlid
    unfold updateRatings
    rw [hfalsy]
    simp only [Bool.false_eq_true, if_false, Option.getD_some]
    rw [if_neg (by push_neg; exact ⟨hr.2, hr.1⟩)]
    rw [hlid]
    refine ⟨by simp, ?_⟩
    rw [(getRatings_preserves uid (some u) now (insertState s uid lid u v)).1]
    exact mem_upsertRating s.ratings lid u v

/-- A one-level database state used for concrete evaluations. -/
def demoState : SrvState :=
  { levels := [⟨1, "lv"⟩], ratings := [], cache := [] }

/-- C4 counterexample: the rating 1/2 is nonzero and lies outside the range
1 to 10, yet updateRatings does not reject it with BadRequestError and a
rating row holding 1/2 is stored. -/
theorem C4_counterexample :
    (mkRat 1 2 ≠ 0 ∧ ¬ ((1 : ℚ) ≤ mkRat 1 2)) ∧
    (updateRatings "lv" 7 (some (mkRat 1 2)) 0 demoState).1.isOk = true ∧
    (⟨1, 7, mkRat 1 2⟩ : RatingRow) ∈
      (updateRatings "lv" 7 (some (mkRat 1 2)) 0 demoState).2.ratings := by
  refine ⟨by decide, by decide, by decide⟩

/-- The CASE expression of ProfileController.personalRating: the performance
rating as a function of accuracy; log is the base-10 log of PostgreSQL and
the operator written as a bar-slash is the square root. -/
noncomputable def performance_rating (a : ℝ) : ℝ :=
  if a < 0.7 then Real.sqrt (a / 0.7) * 0.5
  else if a < 0.97 then 0.7 - 0.2 * Real.logb 10 ((1 - a) / 0.03)
  else if a < 0.997 then 0.7 - 0.16 * Real.logb 10 ((1 - a) / 0.03)
  else if a < 0.9997 then 0.78 - 0.08 * Real.logb 10 ((1 - a) / 0.03)
  else a * 200 - 199

/-- A record joined with its chart, keeping accuracy and difficulty. -/
structure PlayRecord where
  accuracy : ℝ
  difficulty : ℝ

/-- ProfileController.personalRating: the SQL avg of
performance_rating * difficulty_rating over the records of one user, NULL
on an empty record set. -/
noncomputable def personalRating (records : List PlayRecord) : Option ℝ :=
  match records with
  | [] => none
  | r :: rs =>
    some ((((r :: rs).map
      (fun p => performance_rating p.accuracy * p.difficulty)).sum) /
      (r :: rs).length)

/-- Modelled from the spec: the piecewise performance-rating curve exactly
as the claim states it, with two-sided range conditions. -/
noncomputable def specPerformanceRating (a : ℝ) : ℝ :=
  if a < 0.7 then Real.sqrt (a / 0.7) * 0.5
  else if 0.7 ≤ a ∧ a < 0.97 then 0.7 - 0.2 * Real.logb 10 ((1 - a) / 0.03)
  else if 0.97 ≤ a ∧ a < 0.997 then 0.7 - 0.16 * Real.logb 10 ((1 - a) / 0.03)
  else if 0.997 ≤ a ∧ a < 0.9997 then 0.78 - 0.08 * Real.logb 10 ((1 - a) / 0.03)
  else a * 200 - 199

theorem performance_rating_eq_spec (a : ℝ) :
    performance_rating a = specPerformanceRating a := by
  unfold performance_rating specPerformanceRating
  rcases lt_or_ge a 0.7 with h1 | h1
  · rw [if_pos h1, if_pos h1]
  · rw [if_neg (not_lt.mpr h1), if_neg (not_lt.mpr h1)]
    rcases lt_or_ge a 0.97 with h2 | h2
    · rw [if_pos h2, if_pos ⟨h1, h2⟩]
    · have hn2 : ¬ ((0.7 : ℝ) ≤ a ∧ a < 0.97) := by
        push_neg
        intro _
        exact h2
      rw [if_neg (not_lt.mpr h2), if_neg hn2]
      rcases lt_or_ge a 0.997 with h3 | h3
      · rw [if_pos h3, if_pos ⟨by linarith, h3⟩]
      · have hn3 : ¬ ((0.97 : ℝ) ≤ a ∧ a < 0.997) := by
          push_neg
          intro _
          exact h3
        rw [if_neg (not_lt.mpr h3), if_neg hn3]
        rcases lt_or_ge a 0.9997 with h4 | h4
        · rw [if_pos h4, if_pos ⟨by linarith, h4⟩]
        · have hn4 : ¬ ((0.997 : ℝ) ≤ a ∧ a < 0.9997) := by
            push_neg
            intro _
            exact h4
          rw [if_neg (not_lt.mpr h4), if_neg hn4]

/-- C5: personalRating returns the average of
performance_rating * difficulty over all records of the user, with the CASE
curve of the source coinciding on every accuracy with the claimed piecewise
function: sqrt(a/0.7)*0.5 below 0.7, the three log segments on
[0.7, 0.97), [0.97, 0.997) and [0.997, 0.9997), and a*200-199 above. -/
theorem C5_personal_rating :
    (∀ a : ℝ, performance_rating a = specPerformanceRating a) ∧
    (∀ records : List PlayRecord, records ≠ [] →
      personalRating records =
        some (((records.map
          (fun p => specPerformanceRating p.accuracy * p.difficulty)).sum) /
          records.length)) := by
  refine ⟨performance_rating_eq_spec, ?_⟩
  intro records hne
  cases records with
  | nil => exact absurd rfl hne
  | cons r rs =>
    unfold personalRating
    simp only [performance_rating_eq_spec]

/-- A record joined with its chart and level as read by the scores CTE of
ProfileController.exp; the numeric columns carry the database values,
embedded as rationals. -/
structure ExpRecord where
  score : ℚ
  notesCount : ℚ
  difficulty : ℚ
  duration : ℚ
  ranked : Bool
  levelId : ℕ
deriving DecidableEq

/-- The base expression of the scores CTE:
notesCount * (difficulty / 15) + duration / 60 * 100 * (ranked ? 1 : 0.5). -/
def expBase (r : ExpRecord) : ℚ :=
  r.notesCount * (r.difficulty / 15) +
    r.duration / 60 * 100 * (if r.ranked then 1 else 1 / 2)

/-- The scores CTE: the records of the user whose chart difficulty lies
between 1 and 16 inclusive. -/
def scoresCTE (recs : List ExpRecord) : List ExpRecord :=
  recs.filter (fun r => 1 ≤ r.difficulty ∧ r.difficulty ≤ 16)

/-- The summand of the chart_scores CTE:
pow(score / 1000000, 2) * (base * 1.5). -/
def chartScore (r : ExpRecord) : ℚ :=
  (r.score / 1000000) ^ 2 * (expBase r * (3 / 2))

/-- The GROUP BY keys of the chart_scores CTE: the levels of the qualifying
records. -/
def levelsOf (l : List ExpRecord) : List ℕ :=
  (l.map (fun r => r.levelId)).dedup

/-- The max aggregate of one chart_scores group. -/
def groupMax (l : List ExpRecord) (lv : ℕ) : ℚ :=
  match l.filter (fun r => r.levelId == lv) with
  | [] => 0
  | x :: xs => (xs.map chartScore).foldl max (chartScore x)

/-- The chart_scores CTE: the per-level maxima of chartScore. -/
def chart_scores (recs : List ExpRecord) : List ℚ :=
  (levelsOf (scoresCTE recs)).map (groupMax (scoresCTE recs))

/-- The FROM scores, chart_scores cross join of the final SELECT of exp. -/
def sqlCross {α β : Type} (a : List α) (b : List β) : List (α × β) :=
  a.flatMap (fun x => b.map (fun y => (x, y)))

/-- The basic_exp aggregate of exp: the sum of sqrt(score/1000000) * base
over the rows of the cross join of scores with chart_scores. -/
noncomputable def basic_exp (recs : List ExpRecord) : ℝ :=
  ((sqlCross (scoresCTE recs) (chart_scores recs)).map
    (fun p => Real.sqrt ((p.1.score / 1000000 : ℚ) : ℝ) * ((expBase p.1 : ℚ) : ℝ))).sum

/-- The level_exp aggregate of exp: the sum of chart_scores.score over the
rows of the same cross join. -/
def level_exp (recs : List ExpRecord) : ℚ :=
  ((sqlCross (scoresCTE recs) (chart_scores recs)).map (fun p => p.2)).sum

/-- totalExp = basicExp + levelExp; an empty record set reaches this line as
null + null, which is 0 in JavaScript, matching the empty sums. -/
noncomputable def totalExpOf (recs : List ExpRecord) : ℝ :=
  basic_exp recs + (level_exp recs : ℝ)

/-- currentLevel = 1 / 30 * (Math.sqrt(6 * totalExp + 400) + 20) + 1. -/
noncomputable def currentLevelOf (recs : List ExpRecord) : ℝ :=
  1 / 30 * (Real.sqrt (6 * totalExpOf recs + 400) + 20) + 1

/-- The object returned by ProfileController.exp. -/
structure ExpResult where
  basicExp : ℝ
  levelExp : ℝ
  totalExp : ℝ
  currentLevel : ℝ
  nextLevelExp : ℝ

/-- ProfileController.exp: the SQL aggregates followed by the level
progression formulas, with nextLevelExp = 150 * (cl * cl) - 200 * cl. -/
noncomputable def exp (recs : List ExpRecord) : ExpResult :=
  { basicExp := basic_exp recs
    levelExp := (level_exp recs : ℝ)
    totalExp := totalExpOf recs
    currentLevel := currentLevelOf recs
    nextLevelExp :=
      150 * (currentLevelOf recs * currentLevelOf recs) - 200 * currentLevelOf recs }

/-- Modelled from the spec: basicExp read as the plain sum of
sqrt(score/1000000) * base over the qualifying records, as the claim
states it. -/
noncomputable def claimBasicExp (recs : List ExpRecord) : ℝ :=
  ((scoresCTE recs).map
    (fun r => Real.sqrt ((r.score / 1000000 : ℚ) : ℝ) * ((expBase r : ℚ) : ℝ))).sum

/-- Modelled from the spec: levelExp read as the plain sum of the per-level
maxima, as the claim states it. -/
def claimLevelExp (recs : List ExpRecord) : ℚ :=
  (chart_scores recs).sum

theorem map_fst_sqlCross_sum {α β R : Type} [CommSemiring R] (a : List α) (b : List β)
    (f : α → R) :
    ((sqlCross a b).map (fun p => f p.1)).sum = (b.length : R) * (a.map f).sum := by
  induction a with
  | nil => simp [sqlCross]
  | cons x t ih =>
    show ((b.map (fun y => (x, y)) ++ sqlCross t b).map (fun p => f p.1)).sum = _
    rw [List.map_append, List.sum_append, ih]
    have h1 : (b.map (fun y => (x, y))).map (fun p => f p.1) = b.map (fun _ => f x) := by
      rw [List.map_map]
      rfl
    rw [h1, List.map_const', List.sum_replicate, nsmul_eq_mul, List.map_cons, List.sum_cons]
    ring

theorem map_snd_sqlCross_sum {α β R : Type} [CommSemiring R] (a : List α) (b : List β)
    (g : β → R) :
    ((sqlCross a b).map (fun p => g p.2)).sum = (a.length : R) * (b.map g).sum := by
  induction a with
  | nil => simp [sqlCross]
  | cons x t ih =>
    show ((b.map (fun y => (x, y)) ++ sqlCross t b).map (fun p => g p.2)).sum = _
    rw [List.map_append, List.sum_append, ih]
    have h1 : (b.map (fun y => (x, y))).map (fun p => g p.2) = b.map g := by
      rw [List.map_map]
      rfl
    rw [h1, List.length_cons]
    push_cast
    ring

/-- C6 amended: because the final SELECT of exp draws from the cross join
FROM scores, chart_scores, basicExp equals the number of distinct levels
times the claimed plain sum of sqrt(score/1000000) * base, and levelExp
equals the number of qualifying records times the claimed sum of per-level
maxima; totalExp, currentLevel and nextLevelExp then follow the claimed
formulas totalExp = basicExp + levelExp,
currentLevel = 1/30 * (sqrt(6 * totalExp + 400) + 20) + 1 and
nextLevelExp = 150 * currentLevel^2 - 200 * currentLevel. -/
theorem C6_exp_formulas (recs : List ExpRecord) :
    (exp recs).basicExp = (chart_scores recs).length * claimBasicExp recs ∧
    (exp recs).levelExp = (scoresCTE recs).length * (claimLevelExp recs : ℝ) ∧
    (exp recs).totalExp = (exp recs).basicExp + (exp recs).levelExp ∧
    (exp recs).currentLevel =
      1 / 30 * (Real.sqrt (6 * (exp recs).totalExp + 400) + 20) + 1 ∧
    (exp recs).nextLevelExp =
      150 * (exp recs).currentLevel ^ 2 - 200 * (exp recs).currentLevel := by
  refine ⟨?_, ?_, rfl, rfl, ?_⟩
  · show basic_exp recs = _
    unfold basic_exp claimBasicExp
    exact map_fst_sqlCross_sum (R := ℝ) (scoresCTE recs) (chart_scores recs)
      (fun r => Real.sqrt ((r.score / 1000000 : ℚ) : ℝ) * ((expBase r : ℚ) : ℝ))
  · show (level_exp recs : ℝ) = _
    have h := map_snd_sqlCross_sum (R := ℚ) (scoresCTE recs) (chart_scores recs)
      (fun y => y)
    unfold level_exp claimLevelExp
    rw [show ((sqlCross (scoresCTE recs) (chart_scores recs)).map (fun p => p.2)) =
      ((sqlCross (scoresCTE recs) (chart_scores recs)).map (fun p => (fun y => y) p.2)) from rfl]
    rw [h, List.map_id']
    push_cast
    ring
  · show 150 * (currentLevelOf recs * currentLevelOf recs) - 200 * currentLevelOf recs = _
    rw [pow_two]
    rfl

/-- The two-record input on two distinct levels used against the plain-sum
reading of exp: both records score 1000000 on charts of difficulty 15 with
one note and zero duration, so each base is 1 and each per-level maximum is
3/2. -/
def cexExpRecs : List ExpRecord :=
  [⟨1000000, 1, 15, 0, true, 1⟩, ⟨1000000, 1, 15, 0, true, 2⟩]

/-- C6 counterexample: on two qualifying records over two distinct levels
the cross join doubles both aggregates: basic_exp evaluates to 4 while the
claimed plain sum evaluates to 2, and level_exp evaluates to 6 while the
claimed sum of per-level maxima evaluates to 3. -/
theorem C6_counterexample :
    (exp cexExpRecs).basicExp ≠ claimBasicExp cexExpRecs ∧
    (exp cexExpRecs).levelExp ≠ (claimLevelExp cexExpRecs : ℝ) := by
  have hbase : expBase ⟨1000000, 1, 15, 0, true, 1⟩ = 1 := by
    norm_num [expBase]
  have hbase2 : expBase ⟨1000000, 1, 15, 0, true, 2⟩ = 1 := by
    norm_num [expBase]
  have hcs1 : chartScore ⟨1000000, 1, 15, 0, true, 1⟩ = 3 / 2 := by
    rw [chartScore, hbase]
    norm_num
  have hcs2 : chartScore ⟨1000000, 1, 15, 0, true, 2⟩ = 3 / 2 := by
    rw [chartScore, hbase2]
    norm_num
  have hlv : levelsOf (scoresCTE cexExpRecs) = [1, 2] := by decide
  have hchart : chart_scores cexExpRecs =
      [chartScore ⟨1000000, 1, 15, 0, true, 1⟩,
        chartScore ⟨1000000, 1, 15, 0, true, 2⟩] := by
    unfold chart_scores
    rw [hlv]
    rfl
  have hterm : Real.sqrt (((1000000 : ℚ) / 1000000 : ℚ) : ℝ) = 1 := by
    norm_num
  constructor
  · show basic_exp cexExpRecs ≠ claimBasicExp cexExpRecs
    have hb : basic_exp cexExpRecs =
        Real.sqrt (((1000000 : ℚ) / 1000000 : ℚ) : ℝ) *
            ((expBase ⟨1000000, 1, 15, 0, true, 1⟩ : ℚ) : ℝ) +
          (Real.sqrt (((1000000 : ℚ) / 1000000 : ℚ) : ℝ) *
            ((expBase ⟨1000000, 1, 15, 0, true, 1⟩ : ℚ) : ℝ) +
          (Real.sqrt (((1000000 : ℚ) / 1000000 : ℚ) : ℝ) *
            ((expBase ⟨1000000, 1, 15, 0, true, 2⟩ : ℚ) : ℝ) +
          (Real.sqrt (((1000000 : ℚ) / 1000000 : ℚ) : ℝ) *
            ((expBase ⟨1000000, 1, 15, 0, true, 2⟩ : ℚ) : ℝ) + 0))) := by
      unfold basic_exp
      rw [hchart]
      rfl
    have hc : claimBasicExp cexExpRecs =
        Real.sqrt (((1000000 : ℚ) / 1000000 : ℚ) : ℝ) *
            ((expBase ⟨1000000, 1, 15, 0, true, 1⟩ : ℚ) : ℝ) +
          (Real.sqrt (((1000000 : ℚ) / 1000000 : ℚ) : ℝ) *
            ((expBase ⟨1000000, 1, 15, 0, true, 2⟩ : ℚ) : ℝ) + 0) := rfl
    rw [hb, hc, hterm, hbase, hbase2]
    norm_num
  · show (level_exp cexExpRecs : ℝ) ≠ _
    have hl : level_exp cexExpRecs =
        chartScore ⟨1000000, 1, 15, 0, true, 1⟩ +
          (chartScore ⟨1000000, 1, 15, 0, true, 2⟩ +
          (chartScore ⟨1000000, 1, 15, 0, true, 1⟩ +
          (chartScore ⟨1000000, 1, 15, 0, true, 2⟩ + 0))) := by
      unfold level_exp
      rw [hchart]
      rfl
    have hc : claimLevelExp cexExpRecs =
        chartScore ⟨1000000, 1, 15, 0, true, 1⟩ +
          (chartScore ⟨1000000, 1, 15, 0, true, 2⟩ + 0) := by
      unfold claimLevelExp
      rw [hchart]
      rfl
    rw [hl, hc, hcs1, hcs2]
    norm_num

/-- A one-chart database with three players, two of them tied on score, and
one extra worse record for the tied later player. -/
def demoDb : Db :=
  { levels := [⟨1, "lv"⟩]
    charts := [⟨5, 1, "hard"⟩]
    records :=
      [⟨1, 100, 5, 900000, 50, true⟩,
       ⟨2, 200, 5, 900000, 40, true⟩,
       ⟨3, 300, 5, 950000, 60, true⟩,
       ⟨4, 100, 5, 800000, 10, true⟩]
    users := [⟨100, "alice"⟩, ⟨200, "bob"⟩, ⟨300, "carol"⟩] }

/-- C1 witness: on the demo chart the two 900000 records are ranked 2 and 3
with the earlier one ranked 2, and the rank-count identity holds for the
leader. -/
theorem C1_leaderboard_rank_order_witness :
    (⟨⟨3, 300, 5, 950000, 60, true⟩, 1⟩ : LBEntry) ∈ queryLeaderboard demoDb "lv" "hard" ∧
    (⟨⟨3, 300, 5, 950000, 60, true⟩, 1⟩ : LBEntry).rank =
      1 + (queryLeaderboard demoDb "lv" "hard").countP
        (fun x => aheadOf x.row (⟨⟨3, 300, 5, 950000, 60, true⟩, 1⟩ : LBEntry).row) ∧
    (⟨⟨2, 200, 5, 900000, 40, true⟩, 2⟩ : LBEntry).rank <
      (⟨⟨1, 100, 5, 900000, 50, true⟩, 3⟩ : LBEntry).rank :=
  ⟨by decide,
    (C1_leaderboard_rank_order demoDb "lv" "hard").2.1
      ⟨⟨3, 300, 5, 950000, 60, true⟩, 1⟩ (by decide),
    (C1_leaderboard_rank_order demoDb "lv" "hard").2.2
      ⟨⟨2, 200, 5, 900000, 40, true⟩, 2⟩ (by decide)
      ⟨⟨1, 100, 5, 900000, 50, true⟩, 3⟩ (by decide) rfl (by decide)⟩

/-- C2 witness: asking the ranking around the name alice (rank 3) with
userLimit 1 returns the rank-2 entry. -/
theorem C2_rank_window_around_user_witness :
    (⟨⟨2, 200, 5, 900000, 40, true⟩, 2⟩ : LBEntry) ∈
      getChartRankingUser demoDb "lv" "hard" (UserParam.byName "alice") 1 :=
  (C2_rank_window_around_user demoDb "lv" "hard" (UserParam.byName "alice") 1 100
    ⟨⟨1, 100, 5, 900000, 50, true⟩, 3⟩ (by decide) (by decide)
    ⟨⟨2, 200, 5, 900000, 40, true⟩, 2⟩).mpr
    ⟨by decide, by norm_num⟩

/-- C3 witness: two ratings of 7 and 9 produce the Bayesian value of the
claimed formula. -/
theorem C3_bayesian_rating_witness :
    aux_rating [7, 9] =
      some (specBayesRating ([(7 : ℚ), 9] : List ℚ).length
        (([(7 : ℚ), 9] : List ℚ).sum / ([(7 : ℚ), 9] : List ℚ).length)) :=
  C3_bayesian_rating.1 [7, 9] (by simp)

/-- C4 witness: the nonzero rating 11 is rejected with the state unchanged,
while the rating 4 is stored for the existing level. -/
theorem C4_rating_range_witness :
    updateRatings "lv" 7 (some 11) 0 demoState =
      (Except.error UpdErr.badRequest, demoState) ∧
    (⟨1, 7, 4⟩ : RatingRow) ∈ (updateRatings "lv" 7 (some 4) 0 demoState).2.ratings :=
  ⟨(C4_rating_range "lv" 7 11 0 demoState 1 (by decide)).1 (by decide),
    ((C4_rating_range "lv" 7 4 0 demoState 1 (by decide)).2 (by decide) (by decide)).2⟩

/-- C5 witness: a single record of accuracy 1 on a difficulty-2 chart is
averaged with the claimed piecewise curve. -/
theorem C5_personal_rating_witness :
    personalRating [⟨1, 2⟩] =
      some ((([(⟨1, 2⟩ : PlayRecord)] : List PlayRecord).map
        (fun p => specPerformanceRating p.accuracy * p.difficulty)).sum /
        ([(⟨1, 2⟩ : PlayRecord)] : List PlayRecord).length) :=
  C5_personal_rating.2 [⟨1, 2⟩] (by simp)

/-- A state with one stored rating and an empty cache. -/
def demoState7 : SrvState :=
  { levels := [⟨1, "lv"⟩], ratings := [⟨1, 9, 5⟩], cache := [] }

/-- The same state with a live cache entry holding a dummy aggregate. -/
def demoState7b : SrvState :=
  { levels := [⟨1, "lv"⟩], ratings := [⟨1, 9, 5⟩]
    cache := [("lv", ⟨⟨none, 0, []⟩, 100⟩)] }

/-- C7 witness: a getRatings miss at the demo state caches the computed
aggregate with expiry 3600; a hit on a live entry serves the stored dummy
aggregate without touching the state; and a successful updateRatings leaves
the freshly recomputed aggregate in the cache. -/
theorem C7_ttl_cache_witness :
    ((getRatings "lv" none 0 demoState7).1.agg =
        computeAgg (levelRatings demoState7 "lv") ∧
      (getRatings "lv" none 0 demoState7).2.cache.find? (fun e => e.1 == "lv") =
        some ("lv", ⟨computeAgg (levelRatings demoState7 "lv"), 0 + 3600⟩) ∧
      (getRatings "lv" none 0 demoState7).2.ratings = demoState7.ratings) ∧
    ((getRatings "lv" none 0 demoState7b).1.agg = ⟨none, 0, []⟩ ∧
      (getRatings "lv" none 0 demoState7b).2 = demoState7b) ∧
    ((getRatings "lv" (some 7) 0 (insertState demoState "lv" 1 7 4)).1.agg =
        computeAgg (levelRatings ((updateRatings "lv" 7 (some 4) 0 demoState).2) "lv") ∧
      (updateRatings "lv" 7 (some 4) 0 demoState).2.cache.find? (fun e => e.1 == "lv") =
        some ("lv", ⟨(getRatings "lv" (some 7) 0 (insertState demoState "lv" 1 7 4)).1.agg,
          0 + 3600⟩)) :=
  ⟨C7_ttl_cache.1 "lv" none 0 demoState7 rfl,
    C7_ttl_cache.2.1 "lv" none 0 demoState7b ⟨none, 0, []⟩ rfl,
    C7_ttl_cache.2.2 "lv" 7 (some 4) 0 demoState
      (getRatings "lv" (some 7) 0 (insertState demoState "lv" 1 7 4)).1 rfl⟩

/-- C9 witness: deleting the rating of a user who never rated the existing
level throws NotFoundError with the state unchanged, while the user who did
rate it gets the row removed. -/
theorem C9_falsy_rating_delete_witness :
    updateRatings "lv" 7 none 0 demoState7 =
      (Except.error UpdErr.notFound, demoState7) ∧
    (updateRatings "lv" 9 (some 0) 0 demoState7).2.ratings =
      keptRatings demoState7 "lv" 9 :=
  ⟨(C9_falsy_rating_delete "lv" 7 none 0 demoState7 rfl).1 (by decide),
    ((C9_falsy_rating_delete "lv" 9 (some 0) 0 demoState7 (by decide)).2.1 (by decide)).2⟩

/-- C10 witness: a negative page number is rejected, and a negative limit is
clamped to 0 yielding the null body with the count header. -/
theorem C10_paging_witness :
    getLevels (-1) 5 [] = LevelsOutcome.badRequest ∧
    getLevels 0 (-3) [1, 2] = LevelsOutcome.okNull 2 :=
  ⟨(C10_paging (-1) 5 []).2.1 (by decide),
    (C10_paging 0 (-3) [1, 2]).2.2 (by decide) (by decide)⟩

/-- C8 witness: the 800000 record of player 100 does not outrank the kept
900000 record of the same player on the demo leaderboard. -/
theorem C8_distinct_best_per_owner_witness :
    (⟨⟨1, 100, 5, 900000, 50, true⟩, 3⟩ : LBEntry) ∈
      queryLeaderboard demoDb "lv" "hard" ∧
    aheadOf ⟨4, 100, 5, 800000, 10, true⟩ ⟨1, 100, 5, 900000, 50, true⟩ = false :=
  ⟨by decide,
    (C8_distinct_best_per_owner demoDb "lv" "hard").2.2.1
      ⟨⟨1, 100, 5, 900000, 50, true⟩, 3⟩ (by decide)
      ⟨4, 100, 5, 800000, 10, true⟩ (by decide) (by decide) rfl rfl⟩
